import Mathlib

set_option autoImplicit false
set_option maxHeartbeats 1000000

/-!
Shallow embedding of the deterministic core of the `debbugy.py` UVM debug
pipeline: log-failure scanning, include-graph resolution, waveform window
extraction, the LLM-reply JSON validator with its retry loop, and the
orchestrator.  Machine strings are `String`/`List Char`, machine integers are
`Int`/`Nat`, fallible code returns `Option`/`Except`, and the unbounded
recursion of the include scanner is made total with an explicit fuel
parameter (`none` = the recursion did not finish within the given depth).
-/

universe u

/-! ## Python string helpers -/

/-- The whitespace characters stripped by Python's `str.strip` /
`str.rstrip` (the ASCII whitespace set). -/
def isPySpace (c : Char) : Bool :=
  c == (' ') || c == ('\t') || c == ('\n') || c == ('\r') || c == ('\x0b') || c == ('\x0c')

/-- Python `str.strip()` on a character list: drop whitespace at both ends. -/
def pyStrip (cs : List Char) : List Char :=
  ((cs.dropWhile isPySpace).reverse.dropWhile isPySpace).reverse

/-- Python `str.rstrip()` on a character list: drop trailing whitespace. -/
def pyRstrip (cs : List Char) : List Char :=
  (cs.reverse.dropWhile isPySpace).reverse

/-- Python `str.strip()` on a `String`. -/
def pyStripStr (s : String) : String :=
  String.mk (pyStrip s.data)

/-- Python `str.rstrip()` on a `String`. -/
def pyRstripStr (s : String) : String :=
  String.mk (pyRstrip s.data)

/-- The last `n` elements of a list (all of it when `n ≥ length`). -/
def lastN {α : Type u} (n : Nat) (l : List α) : List α :=
  l.drop (l.length - n)

/-- One `append` on a `collections.deque(maxlen := maxlen)`: keep the last
`maxlen` elements. -/
def pushBounded (maxlen : Nat) (d : List String) (x : String) : List String :=
  lastN maxlen (d ++ [x])

/-- Python's substring test `needle in hay`. -/
def containsSub (hay needle : List Char) : Bool :=
  if needle.isPrefixOf hay then true
  else
    match hay with
    | [] => false
    | _ :: t => containsSub t needle

/-! ## 2. UVM log parsing: `extract_first_uvm_error`

The two compiled failure regexes of the source are modelled by their search
functions: a pattern applied to a line either fails or returns the captured
source-file and source-line groups (`m.group(2)`, `int(m.group(3))`).  The
claims quantify over arbitrary pattern sets, so the scanner is parametrised
by the pattern list exactly as the source loops over `error_patterns`. -/

def UvmPattern : Type := String → Option (String × Nat)

structure FailureRecord where
  log_line : Nat
  error_text : String
  tb_file : String
  tb_line : Nat
  context : List String
deriving Repr, DecidableEq, Inhabited

/-- The inner `for pat in error_patterns` loop: the first pattern that
matches the line supplies the captured groups. -/
def firstMatch (patterns : List UvmPattern) (line : String) : Option (String × Nat) :=
  match patterns with
  | [] => none
  | p :: rest =>
    match p line with
    | some g => some g
    | none => firstMatch rest line

/-- The `for i, line in enumerate(f, start=1)` loop of
`extract_first_uvm_error`: append the rstripped line to the bounded deque,
then test the patterns; on a match build the record, whose `context` is
`list(prev)[:-1]`. -/
def scanLoop (patterns : List UvmPattern) (maxlen : Nat) :
    List String → Nat → List String → Option FailureRecord
  | [], _, _ => none
  | line :: rest, i, prev =>
    let prev2 := pushBounded maxlen prev (pyRstripStr line)
    match firstMatch patterns line with
    | some g => some ⟨i, pyStripStr line, g.1, g.2, prev2.dropLast⟩
    | none => scanLoop patterns maxlen rest (i + 1) prev2

/-- Embeds `extract_first_uvm_error(log_path, context_lines)`: the log is the list
of its lines. -/
def extract_first_uvm_error (patterns : List UvmPattern) (log : List String)
    (context_lines : Nat) : Option FailureRecord :=
  scanLoop patterns context_lines log 1 []

/-! ## 3. Related testbench file discovery: `find_related_tb_files`

The filesystem is a finite map from path strings to file lines; existence and
reads are keyed by the literal path string, as `os.path.exists`/`open` are in
the source.  The source's `scan` has no visited check and recurses on every
resolved include, so the embedding carries a fuel bound on the recursion
depth; `none` means the given depth was exhausted. -/

structure FS where
  files : List (String × List String)

def existsPath (fs : FS) (p : String) : Bool :=
  fs.files.any (fun e => e.1 == p)

def linesOf (fs : FS) (p : String) : List String :=
  match fs.files.find? (fun e => e.1 == p) with
  | some e => e.2
  | none => []

/-- Python `os.path.join(root, name)` for the cases that arise here: an absolute
`name` wins, otherwise the two parts are joined with a single slash. -/
def joinPath (root name : String) : String :=
  if name.data.head? == some ('/') then name
  else if root == ("") then name
  else if root.data.getLast? == some ('/') then root ++ name
  else root ++ ("/") ++ name

/-- Matcher for the capture of `[^"]+"` : the characters before the closing
quote, required to be non-empty, with the closing quote required present. -/
def scanIncludeName (cs : List Char) : Option (List Char) :=
  let cap := cs.takeWhile (fun c => c ≠ ('"'))
  let rest := cs.dropWhile (fun c => c ≠ ('"'))
  if cap.isEmpty then none
  else
    match rest with
    | [] => none
    | _ :: _ => some cap

/-- Try to match the include regex at the head of the character list:
a backtick, `include`, at least one whitespace character, a quote, then the
quoted capture. -/
def matchIncludeAt (cs : List Char) : Option (List Char) :=
  match cs with
  | '\x60' :: 'i' :: 'n' :: 'c' :: 'l' :: 'u' :: 'd' :: 'e' :: rest =>
    let ws := rest.takeWhile isPySpace
    let rest2 := rest.dropWhile isPySpace
    if ws.isEmpty then none
    else
      match rest2 with
      | '"' :: rest3 => scanIncludeName rest3
      | _ => none
  | _ => none

/-- The search `include_re.search(line)`: the leftmost match of the include regex. -/
def findIncludeName : List Char → Option String
  | [] => none
  | c :: rest =>
    match matchIncludeAt (c :: rest) with
    | some cap => some (String.mk cap)
    | none => findIncludeName rest

/-- Model of `related.add(file)` on the result set: an insertion-ordered
duplicate-free list. -/
def addPath (p : String) (acc : List String) : List String :=
  if acc.contains p then acc else acc ++ [p]

/-- The per-directive `for p in search_paths` loop of `scan`: every root
under which the referenced name exists is recursed into (the source has no
`break`), threading the result set and propagating fuel exhaustion. -/
def scanRootsGo (fs : FS) (rec : String → List String → Option (List String))
    (roots : List String) (name : String) (acc : List String) : Option (List String) :=
  match roots with
  | [] => some acc
  | p :: rest =>
    let inc := joinPath p name
    if existsPath fs inc then
      match rec inc acc with
      | none => none
      | some acc2 => scanRootsGo fs rec rest name acc2
    else scanRootsGo fs rec rest name acc

/-- The per-line loop of `scan`: `include_re.search` finds at most one
directive per line. -/
def scanLinesGo (fs : FS) (rec : String → List String → Option (List String))
    (roots : List String) (lines : List String) (acc : List String) : Option (List String) :=
  match lines with
  | [] => some acc
  | line :: rest =>
    match findIncludeName line.data with
    | none => scanLinesGo fs rec roots rest acc
    | some name =>
      match scanRootsGo fs rec roots name acc with
      | none => none
      | some acc2 => scanLinesGo fs rec roots rest acc2

/-- Embeds `scan(file)` of `find_related_tb_files`, with fuel bounding the
recursion depth.  As in the source there is no visited check: the file is
added to the result set and every resolved include is scanned again. -/
def scanFile (fs : FS) (roots : List String) : Nat → String → List String → Option (List String)
  | 0, _, _ => none
  | fuel + 1, file, acc =>
    if existsPath fs file then
      scanLinesGo fs (fun inc acc2 => scanFile fs roots fuel inc acc2) roots
        (linesOf fs file) (addPath file acc)
    else some acc

/-- Embeds `find_related_tb_files(tb_file, search_paths)` with a recursion-depth
fuel; `none` means the source's unbounded recursion did not finish within
that depth. -/
def find_related_tb_files (fs : FS) (tb_file : String) (search_paths : List String)
    (fuel : Nat) : Option (List String) :=
  scanFile fs search_paths fuel tb_file []

/-- The include targets a directive actually resolves to: every root (in
order) under which the referenced name exists.  Used to state what the
per-directive loop does. -/
def existingJoins (fs : FS) (name : String) (roots : List String) : List String :=
  (roots.map (fun p => joinPath p name)).filter (fun q => existsPath fs q)

/-! ## 6. VCD signal extraction: `extract_vcd_window`

A trace is the list of its lines.  A stripped line beginning with `#` updates
the running time cursor via Python `int(...)`; a malformed time marker is the
fatal `ValueError` of the source, modelled as `.error ()`. -/

/-- Accumulate decimal digits (`int` of a digit string). -/
def digitsToNat : List Char → Nat → Nat
  | [], acc => acc
  | c :: rest, acc => digitsToNat rest (acc * 10 + (c.toNat - ('0').toNat))

/-- Python `int(s)` on the decimal forms that arise in a trace: surrounding
whitespace, an optional sign, then at least one digit. -/
def parseIntChars (cs : List Char) : Option Int :=
  let t := pyStrip cs
  match t with
  | '+' :: rest =>
    if rest.isEmpty then none
    else if rest.all Char.isDigit then some (Int.ofNat (digitsToNat rest 0)) else none
  | '-' :: rest =>
    if rest.isEmpty then none
    else if rest.all Char.isDigit then some (-(Int.ofNat (digitsToNat rest 0))) else none
  | _ =>
    if t.isEmpty then none
    else if t.all Char.isDigit then some (Int.ofNat (digitsToNat t 0)) else none

/-- The line loop of `extract_vcd_window`: strip the line; a `#` line moves
the cursor (or fails fatally); any other line inside the window that contains
the signal as a substring is appended with the current time. -/
def vcdGo (signal : String) (start stop : Int) :
    List String → Int → List (Int × String) → Except Unit (List (Int × String))
  | [], _, acc => .ok acc
  | l :: rest, t, acc =>
    let s := pyStrip l.data
    if s.head? == some ('#') then
      match parseIntChars s.tail with
      | some t2 => vcdGo signal start stop rest t2 acc
      | none => .error ()
    else
      if (decide (start ≤ t) && decide (t ≤ stop)) && containsSub s signal.data then
        vcdGo signal start stop rest t (acc ++ [(t, String.mk s)])
      else vcdGo signal start stop rest t acc

/-- Embeds `extract_vcd_window(vcd_file, signal, start, end)`. -/
def extract_vcd_window (vcd : List String) (signal : String) (start stop : Int) :
    Except Unit (List (Int × String)) :=
  vcdGo signal start stop vcd 0 []

/-- The trace's time markers are non-decreasing from the given cursor (the
time-orderedness the spec's data model ascribes to a waveform trace). -/
def timesOk : List String → Int → Bool
  | [], _ => true
  | l :: rest, t =>
    let s := pyStrip l.data
    if s.head? == some ('#') then
      match parseIntChars s.tail with
      | some t2 => decide (t ≤ t2) && timesOk rest t2
      | none => true
    else timesOk rest t

/-! ## JSON values and `json.loads`

A small model of the JSON decoder for the payloads the pipeline exchanges:
objects, arrays, strings (with the common escapes), integers, booleans and
null.  The decoder succeeds only when the whole candidate is one value, as
`json.loads` requires. -/

inductive Json where
  | null
  | bool (b : Bool)
  | num (n : Int)
  | str (s : String)
  | arr (elems : List Json)
  | obj (fields : List (String × Json))
deriving Inhabited

/-- JSON inter-token whitespace. -/
def isJsonWs (c : Char) : Bool :=
  c == (' ') || c == ('\t') || c == ('\n') || c == ('\r')

def skipWs (cs : List Char) : List Char :=
  cs.dropWhile isJsonWs

def parseEscChar (c : Char) : Option Char :=
  if c == ('"') then some ('"')
  else if c == ('\\') then some ('\\')
  else if c == ('/') then some ('/')
  else if c == ('n') then some ('\n')
  else if c == ('t') then some ('\t')
  else if c == ('r') then some ('\r')
  else if c == ('b') then some (Char.ofNat 8)
  else if c == ('f') then some (Char.ofNat 12)
  else none

/-- Body of a JSON string after its opening quote: the decoded characters
and the remainder after the closing quote. -/
def parseJStringGo : List Char → Option (List Char × List Char)
  | [] => none
  | '"' :: rest => some ([], rest)
  | '\\' :: c :: rest =>
    match parseEscChar c, parseJStringGo rest with
    | some e, some (cs, rem) => some (e :: cs, rem)
    | _, _ => none
  | c :: rest =>
    match parseJStringGo rest with
    | some (cs, rem) => some (c :: cs, rem)
    | none => none

/-- A non-empty run of digits and the remainder. -/
def parseJNat (cs : List Char) : Option (Nat × List Char) :=
  let ds := cs.takeWhile Char.isDigit
  if ds.isEmpty then none
  else some (digitsToNat ds 0, cs.dropWhile Char.isDigit)

mutual

def parseJValue : Nat → List Char → Option (Json × List Char)
  | 0, _ => none
  | f + 1, cs =>
    match cs with
    | 'n' :: 'u' :: 'l' :: 'l' :: rest => some (Json.null, rest)
    | 't' :: 'r' :: 'u' :: 'e' :: rest => some (Json.bool true, rest)
    | 'f' :: 'a' :: 'l' :: 's' :: 'e' :: rest => some (Json.bool false, rest)
    | '"' :: rest =>
      match parseJStringGo rest with
      | some (body, rem) => some (Json.str (String.mk body), rem)
      | none => none
    | '-' :: rest =>
      match parseJNat rest with
      | some (n, rem) => some (Json.num (-(Int.ofNat n)), rem)
      | none => none
    | '[' :: rest =>
      match skipWs rest with
      | ']' :: rest2 => some (Json.arr [], rest2)
      | cs2 => parseJArr f cs2 []
    | '\x7b' :: rest =>
      match skipWs rest with
      | '\x7d' :: rest2 => some (Json.obj [], rest2)
      | cs2 => parseJObj f cs2 []
    | c :: rest =>
      if c.isDigit then
        match parseJNat (c :: rest) with
        | some (n, rem) => some (Json.num (Int.ofNat n), rem)
        | none => none
      else none
    | [] => none

def parseJArr : Nat → List Char → List Json → Option (Json × List Char)
  | 0, _, _ => none
  | f + 1, cs, acc =>
    match parseJValue f (skipWs cs) with
    | none => none
    | some (v, rest) =>
      match skipWs rest with
      | ',' :: rest2 => parseJArr f rest2 (acc ++ [v])
      | ']' :: rest2 => some (Json.arr (acc ++ [v]), rest2)
      | _ => none

def parseJObj : Nat → List Char → List (String × Json) → Option (Json × List Char)
  | 0, _, _ => none
  | f + 1, cs, acc =>
    match skipWs cs with
    | '"' :: rest =>
      match parseJStringGo rest with
      | none => none
      | some (key, rest2) =>
        match skipWs rest2 with
        | ':' :: rest3 =>
          match parseJValue f (skipWs rest3) with
          | none => none
          | some (v, rest4) =>
            match skipWs rest4 with
            | ',' :: rest5 => parseJObj f rest5 (acc ++ [(String.mk key, v)])
            | '\x7d' :: rest5 => some (Json.obj (acc ++ [(String.mk key, v)]), rest5)
            | _ => none
        | _ => none
    | _ => none

end

/-- Python `json.loads` on a character list: one JSON value surrounded by at most
whitespace. -/
def jsonParse (cs : List Char) : Option Json :=
  match parseJValue (2 * cs.length + 2) (skipWs cs) with
  | some (v, rest) => if (skipWs rest).isEmpty then some v else none
  | none => none

/-- Dictionary lookup on a decoded object (`plan["key"]`); as in a Python
dict, a repeated key keeps its last value. -/
def Json.getField (j : Json) (key : String) : Option Json :=
  match j with
  | Json.obj fields =>
    match fields.reverse.find? (fun e => e.1 == key) with
    | some e => some e.2
    | none => none
  | _ => none

/-! ## 8. `parse_llm_json` and `get_debug_plan_with_retry` -/

inductive LlmParseError where
  /-- The raise `ValueError("LLM returned empty response")`. -/
  | emptyResponse
  /-- The raise `ValueError("No JSON object found in LLM response")`. -/
  | noJsonObject
  /-- The decode failure `json.JSONDecodeError` from `json.loads`. -/
  | jsonDecode
deriving Repr, DecidableEq, Inhabited

/-- Work loop of the fence remover; the fuel only makes the recursion
structural and is set so it never runs out (each step consumes at least one
character). -/
def removeFencesGo : Nat → List Char → List Char
  | 0, cs => cs
  | f + 1, cs =>
    match cs with
    | '\x60' :: '\x60' :: '\x60' :: c1 :: c2 :: c3 :: c4 :: rest =>
      if c1.toLower == ('j') && c2.toLower == ('s') && c3.toLower == ('o') && c4.toLower == ('n')
      then removeFencesGo f rest
      else removeFencesGo f (c1 :: c2 :: c3 :: c4 :: rest)
    | '\x60' :: '\x60' :: '\x60' :: rest => removeFencesGo f rest
    | c :: rest => c :: removeFencesGo f rest
    | [] => []

/-- The substitution `re.sub(r"```json|```", "", text, flags=re.IGNORECASE)`: remove each
leftmost fence marker, preferring the 7-character `json` form. -/
def removeFences (cs : List Char) : List Char :=
  removeFencesGo cs.length cs

/-- The search `re.search(r"\{.*\}", text, flags=re.DOTALL)`: the substring from the
first opening brace to the last closing brace, inclusive; `none` when no
closing brace follows an opening one. -/
def extractBraces (cs : List Char) : Option (List Char) :=
  let t := cs.dropWhile (fun c => c ≠ ('\x7b'))
  let r := (t.reverse.dropWhile (fun c => c ≠ ('\x7d'))).reverse
  if r.isEmpty then none else some r

/-- Embeds `parse_llm_json(text)`. -/
def parse_llm_json (text : String) : Except LlmParseError Json :=
  if (pyStrip text.data).isEmpty then .error LlmParseError.emptyResponse
  else
    let t := pyStrip (removeFences text.data)
    match extractBraces t with
    | none => .error LlmParseError.noJsonObject
    | some cand =>
      match jsonParse cand with
      | some v => .ok v
      | none => .error LlmParseError.jsonDecode

/-- The `for attempt in range(retries + 1)` loop of
`get_debug_plan_with_retry`, oracle replies indexed by invocation number;
returns the loop's outcome together with the number of oracle invocations
made.  On the last attempt the parse failure is kept (it becomes the
`RuntimeError`'s cause); earlier failures are discarded and the oracle is
invoked afresh. -/
def retryGo (oracle : Nat → String) : Nat → Nat → (Except LlmParseError Json) × Nat
  | attempt, 0 => (parse_llm_json (oracle attempt), 1)
  | attempt, r + 1 =>
    match parse_llm_json (oracle attempt) with
    | .ok p => (Except.ok p, 1)
    | .error _ =>
      let out := retryGo oracle (attempt + 1) r
      (out.1, out.2 + 1)

/-- Embeds `get_debug_plan_with_retry(..., retries)`: the final `RuntimeError`
carries the attempt count `retries + 1` and the last parse failure as cause.
The second component is the number of oracle invocations made. -/
def get_debug_plan_with_retry (oracle : Nat → String) (retries : Nat) :
    (Except (Nat × LlmParseError) Json) × Nat :=
  let out := retryGo oracle 0 retries
  (match out.1 with
   | Except.ok p => Except.ok p
   | Except.error e => Except.error (retries + 1, e), out.2)

/-! ## Orchestrator: `run_ai_debug`

The two LLM entry points are modelled by their observable data: the plan
oracle is a stream of textual replies indexed by invocation number (the
source calls the same `ask_llm_for_debug_plan` for step 3 and inside the
retry loop, each call being a fresh round trip), and the final-report oracle
is a function of the data the source interpolates into its prompt: the
failure record, the raw step-3 plan text and the waveform mapping.  The run
returns, besides the report, a trace of what was computed and which oracle
calls were made, so the claims about call structure can be stated. -/

def MAX_CONTEXT_LINES : Nat := 15

inductive RunError where
  /-- The raise `RuntimeError("No UVM error found")`. -/
  | noUvmError
  /-- Artifact of the embedding: the resolver's fuel ran out (the source
  would still be recursing). -/
  | resolverFuel
  /-- The `RuntimeError` of `get_debug_plan_with_retry`, with attempt count
  and last parse failure. -/
  | planExhausted (attempts : Nat) (cause : LlmParseError)
  /-- A `plan["signals"]`/`plan["start_time"]`/`plan["end_time"]` value absent or
  not of the shape the orchestrator indexes (`KeyError`/`TypeError`). -/
  | planShape
  /-- The fatal `ValueError` of `extract_vcd_window`. -/
  | vcdParse
deriving Repr, DecidableEq, Inhabited

abbrev VcdData := List (String × List (Int × String))

/-- The update `vcd_data[sig] = ...` on the mapping: replace the value at an existing
key, else append. -/
def upsertAssoc (key : String) (val : List (Int × String)) (m : VcdData) : VcdData :=
  if m.any (fun e => e.1 == key) then
    m.map (fun e => if e.1 == key then (key, val) else e)
  else m ++ [(key, val)]

/-- Lookup `plan[key]`, required to be an integer. -/
def getPlanInt (plan : Json) (key : String) : Option Int :=
  match plan.getField key with
  | some (Json.num n) => some n
  | _ => none

/-- The `for sig in plan["signals"]` loop: each signal name is queried over
the plan's window; the window fields are read inside the loop, as in the
source. -/
def buildVcdGo (vcd : List String) (plan : Json) :
    List Json → VcdData → Except RunError VcdData
  | [], acc => .ok acc
  | sj :: rest, acc =>
    match sj with
    | Json.str s =>
      match getPlanInt plan ("start_time"), getPlanInt plan ("end_time") with
      | some st, some en =>
        match extract_vcd_window vcd s st en with
        | .ok w => buildVcdGo vcd plan rest (upsertAssoc s w acc)
        | .error _ => .error RunError.vcdParse
      | _, _ => .error RunError.planShape
    | _ => .error RunError.planShape

/-- The waveform mapping the orchestrator builds from a validated plan. -/
def buildVcdData (vcd : List String) (plan : Json) : Except RunError VcdData :=
  match plan.getField ("signals") with
  | some (Json.arr sigs) => buildVcdGo vcd plan sigs []
  | _ => .error RunError.planShape

structure RunTrace where
  errorRecord : FailureRecord
  relatedFiles : List String
  rawPlanText : String
  planOracleCalls : Nat
  validatedPlan : Json
  vcdData : VcdData
  finalArgs : List (FailureRecord × String × VcdData)
deriving Inhabited

/-- Embeds `run_ai_debug(log_file, vcd_file, tb_search_paths)`.  Step order as in
the source: scan the log, resolve related files, one raw plan-oracle call,
the validated plan via `get_debug_plan_with_retry` (fresh oracle calls,
indices 1, 2, ...), the waveform mapping from the validated plan, then one
final-report oracle call on the failure record, the raw step-3 text and the
mapping. -/
def run_ai_debug (patterns : List UvmPattern) (log : List String) (fs : FS)
    (search_paths : List String) (resolverFuel : Nat) (vcd : List String)
    (planOracle : Nat → String)
    (finalOracle : FailureRecord → String → VcdData → String) :
    Except RunError (String × RunTrace) :=
  match extract_first_uvm_error patterns log MAX_CONTEXT_LINES with
  | none => .error RunError.noUvmError
  | some errorInfo =>
    match find_related_tb_files fs errorInfo.tb_file search_paths resolverFuel with
    | none => .error RunError.resolverFuel
    | some related =>
      let debugPlanRaw := planOracle 0
      let out := get_debug_plan_with_retry (fun n => planOracle (n + 1)) 2
      match out.1 with
      | Except.error e => .error (RunError.planExhausted e.1 e.2)
      | Except.ok plan =>
        match buildVcdData vcd plan with
        | .error er => .error er
        | .ok vcdData =>
          let report := finalOracle errorInfo debugPlanRaw vcdData
          .ok (report,
            ⟨errorInfo, related, debugPlanRaw, 1 + out.2, plan, vcdData,
              [(errorInfo, debugPlanRaw, vcdData)]⟩)

/-- The trace of a successful run (`default` on a failed one). -/
def runTraceOf (x : Except RunError (String × RunTrace)) : RunTrace :=
  match x with
  | .ok pr => pr.2
  | .error _ => default

/-! ## Concrete inputs for witnesses and counterexamples -/

/-- A pattern in the shape of the source's first regex for demo logs: it
matches the fixed line `UVM_ERROR tb_top.sv(17) boom`, capturing file and
line. -/
def demoUvmPat : UvmPattern :=
  fun l => if l == ("UVM_ERROR tb_top.sv(17) boom") then some (("tb_top.sv"), 17) else none

def demoLog : List String :=
  [("hello"), ("UVM_ERROR tb_top.sv(17) boom")]

/-- The self-include directive line referencing `a.sv` (backtick, `include`, quoted name). -/
def selfIncludeLine : String := "\x60include \"a.sv\""

/-- A filesystem on which `a.sv` includes itself: the entry path and its
root-resolved alias name the same file, as they do on a real filesystem. -/
def selfFS : FS :=
  ⟨[(("a.sv"), [selfIncludeLine]), (("./a.sv"), [selfIncludeLine])]⟩

/-- Here `top.sv` includes `inc.sv`, which exists under both search roots. -/
def twoRootsFS : FS :=
  ⟨[(("top.sv"), ["\x60include \"inc.sv\""]),
    (("r1/inc.sv"), []),
    (("r2/inc.sv"), [])]⟩

def demoVcd : List String :=
  [("#100"), ("clk 1"), ("#150"), ("xclk 0"), ("#300"), ("clk 0")]

/-- The fenced §8 payload. -/
def fencedPlanText : String :=
  "\x60\x60\x60json\n\x7b\"signals\":[\"a\"],\"start_time\":0,\"end_time\":10,\"reasoning\":\"x\"\x7d\n\x60\x60\x60"

def fencedPlanJson : Json :=
  Json.obj [(("signals"), Json.arr [Json.str ("a")]),
            (("start_time"), Json.num 0),
            (("end_time"), Json.num 10),
            (("reasoning"), Json.str ("x"))]

/-- A decodable plan whose window is inverted and whose signal list is
empty. -/
def invertedPlanText : String :=
  "\x7b\"signals\":[],\"start_time\":10,\"end_time\":0,\"reasoning\":\"x\"\x7d"

def invertedPlanJson : Json :=
  Json.obj [(("signals"), Json.arr []),
            (("start_time"), Json.num 10),
            (("end_time"), Json.num 0),
            (("reasoning"), Json.str ("x"))]

/-- A valid plan naming `clk` over `[100, 200]`. -/
def clkPlanText : String :=
  "\x7b\"signals\":[\"clk\"],\"start_time\":100,\"end_time\":200,\"reasoning\":\"x\"\x7d"

def clkPlanJson : Json :=
  Json.obj [(("signals"), Json.arr [Json.str ("clk")]),
            (("start_time"), Json.num 100),
            (("end_time"), Json.num 200),
            (("reasoning"), Json.str ("x"))]

/-- An oracle stub that always returns unparsable text. -/
def stubAlwaysBad : Nat → String := fun _ => ("no json here")

/-- An oracle stub whose first reply is raw prose and whose later replies
carry the valid `clk` plan. -/
def stubRawThenPlan : Nat → String :=
  fun n => if n == 0 then ("raw prose, not a plan") else clkPlanText

/-- Well-formed JSON that has none of the `DebugPlan` fields. -/
def fieldlessText : String := "\x7b\"foo\": 1\x7d"

def fieldlessJson : Json := Json.obj [(("foo"), Json.num 1)]

def demoFinalOracle : FailureRecord → String → VcdData → String :=
  fun _ _ _ => ("final report")

/-- A concrete end-to-end run: demo log, a filesystem not containing the
failing file (so the resolver returns an empty set), the demo trace, and the
raw-then-plan oracle stub. -/
def demoRun : Except RunError (String × RunTrace) :=
  run_ai_debug [demoUvmPat] demoLog selfFS [("r1")] 1 demoVcd stubRawThenPlan demoFinalOracle

/-! ## Lemmas about the bounded context deque -/

theorem lastN_length {α : Type u} (n : Nat) (l : List α) :
    (lastN n l).length = min n l.length := by
  simp only [lastN, List.length_drop]
  omega

theorem lastN_append {α : Type u} (n : Nat) (d ys : List α) :
    lastN n (d ++ ys) = lastN (n - ys.length) d ++ lastN n ys := by
  simp only [lastN, List.drop_append_eq_append_drop, List.length_append]
  rcases le_or_lt n ys.length with h | h
  · rw [Nat.sub_eq_zero_of_le h, Nat.sub_zero, List.drop_length,
      List.drop_eq_nil_of_le (by omega)]
    simp only [List.nil_append]
    congr 1
    omega
  · congr 1
    · congr 1
      omega
    · congr 1
      omega

theorem lastN_lastN {α : Type u} (a b : Nat) (l : List α) :
    lastN a (lastN b l) = lastN (min a b) l := by
  simp only [lastN, List.length_drop, List.drop_drop]
  congr 1
  omega

theorem lastN_lastN_append {α : Type u} (n : Nat) (d ys : List α) :
    lastN n (lastN n d ++ ys) = lastN n (d ++ ys) := by
  rw [lastN_append, lastN_lastN, lastN_append,
    Nat.min_eq_left (Nat.sub_le n ys.length)]

theorem dropLast_drop {α : Type u} (l : List α) (j : Nat) :
    (l.drop j).dropLast = l.dropLast.drop j := by
  rw [List.dropLast_eq_take, List.dropLast_eq_take, List.drop_take,
    List.length_drop]
  congr 1
  omega

/-! ## Characterization of the log scanner's loop -/

/-- What one pass of `scanLoop` computes: `none` exactly when no line
matches any pattern; otherwise the record of the earliest matching line,
whose context is the bounded tail of the rstripped lines up to and including
the match, with the final (matched) entry removed. -/
theorem scanLoop_char (P : List UvmPattern) (cl : Nat) :
    ∀ (l : List String) (i : Nat) (prev : List String),
    match scanLoop P cl l i prev with
    | none => ∀ line ∈ l, firstMatch P line = none
    | some rec =>
      ∃ k line g, l.get? k = some line ∧ firstMatch P line = some g ∧
        (∀ j, j < k → ∀ l2, l.get? j = some l2 → firstMatch P l2 = none) ∧
        rec = ⟨i + k, pyStripStr line, g.1, g.2,
          (lastN cl (prev ++ (l.take (k + 1)).map pyRstripStr)).dropLast⟩ := by
  intro l
  induction l with
  | nil =>
    intro i prev
    simp [scanLoop]
  | cons a rest ih =>
    intro i prev
    cases hm : firstMatch P a with
    | some g =>
      simp only [scanLoop, hm]
      refine ⟨0, a, g, rfl, hm, by omega, ?_⟩
      simp [pushBounded]
    | none =>
      simp only [scanLoop, hm]
      have IH := ih (i + 1) (pushBounded cl prev (pyRstripStr a))
      cases hs : scanLoop P cl rest (i + 1) (pushBounded cl prev (pyRstripStr a)) with
      | none =>
        rw [hs] at IH
        intro line hline
        rcases List.mem_cons.mp hline with h | h
        · rw [h]; exact hm
        · exact IH line h
      | some rec =>
        rw [hs] at IH
        rcases IH with ⟨k, line, g, hget, hfm, hearlier, hrec⟩
        refine ⟨k + 1, line, g, hget, hfm, ?_, ?_⟩
        · intro j hj l2 hl2
          cases j with
          | zero =>
            simp only [List.get?] at hl2
            cases hl2
            exact hm
          | succ j' =>
            exact hearlier j' (by omega) l2 hl2
        · rw [hrec]
          simp only [pushBounded, List.take_succ_cons, List.map_cons, FailureRecord.mk.injEq]
          refine ⟨by omega, ?_⟩
          rw [show prev ++ pyRstripStr a :: (rest.take (k + 1)).map pyRstripStr
              = (prev ++ [pyRstripStr a]) ++ (rest.take (k + 1)).map pyRstripStr by simp,
            lastN_lastN_append]
          exact ⟨trivial, trivial, trivial, rfl⟩

/-! ## Claim C7 -/

/-- Claim C7: for every log and every pattern set, the scanner returns a
record iff some line of the log matches some failure pattern; the returned
`log_line` is the 1-based index of the earliest matching line, and that
line's text (stripped, as `line.strip()` records it) is `error_text`. -/
theorem c7_scanner_iff_earliest (patterns : List UvmPattern) (log : List String) (cl : Nat) :
    match extract_first_uvm_error patterns log cl with
    | none => ∀ line ∈ log, firstMatch patterns line = none
    | some rec =>
      1 ≤ rec.log_line ∧
      ∃ line, log.get? (rec.log_line - 1) = some line ∧
        (firstMatch patterns line).isSome = true ∧
        rec.error_text = pyStripStr line ∧
        ∀ j, j < rec.log_line - 1 → ∀ l2, log.get? j = some l2 →
          firstMatch patterns l2 = none := by
  have H := scanLoop_char patterns cl log 1 []
  unfold extract_first_uvm_error
  cases hs : scanLoop patterns cl log 1 [] with
  | none =>
    rw [hs] at H
    exact H
  | some rec =>
    rw [hs] at H
    rcases H with ⟨k, line, g, hget, hfm, hearlier, hrec⟩
    have hll : rec.log_line = 1 + k := by rw [hrec]
    have het : rec.error_text = pyStripStr line := by rw [hrec]
    have hk1 : 1 + k - 1 = k := by omega
    refine ⟨by omega, line, ?_, ?_, het, ?_⟩
    · rw [hll, hk1]
      exact hget
    · rw [hfm]
      rfl
    · intro j hj l2 hl2
      rw [hll, hk1] at hj
      exact hearlier j hj l2 hl2

/-! ## Claim C1 -/

/-- Claim C1, amended: when the scanner returns a record, `context` is the
suffix of the rstripped lines strictly before the matched line, of length
`min(context_depth - 1, lines_before_match)` — one less than `context_depth`
when saturated, because the source appends the current line to the bounded
deque before testing it and then drops only the final entry.  The claimed
`min(context_depth, lines_before_match)` is off by one (see the
counterexample). -/
theorem c1_context_amended (patterns : List UvmPattern) (log : List String) (cl : Nat)
    (rec : FailureRecord) (h : extract_first_uvm_error patterns log cl = some rec) :
    rec.context = lastN (min (cl - 1) (rec.log_line - 1))
      ((log.take (rec.log_line - 1)).map pyRstripStr) ∧
    rec.context.length = min (cl - 1) (rec.log_line - 1) := by
  have H := scanLoop_char patterns cl log 1 []
  unfold extract_first_uvm_error at h
  rw [h] at H
  rcases H with ⟨k, line, g, hget, hfm, hearlier, hrec⟩
  have hkL : k < log.length := by
    rcases List.get?_eq_some.mp hget with ⟨hk, _⟩
    exact hk
  have hll : rec.log_line = 1 + k := by rw [hrec]
  have hk1 : 1 + k - 1 = k := by omega
  have hctx : rec.context = (lastN cl ((log.take (k + 1)).map pyRstripStr)).dropLast := by
    rw [hrec]
    simp
  have hXlen : ((log.take (k + 1)).map pyRstripStr).length = k + 1 := by
    simp only [List.length_map, List.length_take]
    omega
  have hYlen : ((log.take k).map pyRstripStr).length = k := by
    simp only [List.length_map, List.length_take]
    omega
  have hdlt : (log.take (k + 1)).dropLast = log.take k := by
    rw [List.dropLast_eq_take, List.length_take, List.take_take]
    congr 1
    omega
  have key : rec.context = ((log.take k).map pyRstripStr).drop ((k + 1) - cl) := by
    rw [hctx, lastN, dropLast_drop, hXlen, ← List.map_dropLast, hdlt]
  have hc1 : rec.context = lastN (min (cl - 1) (rec.log_line - 1))
      ((log.take (rec.log_line - 1)).map pyRstripStr) := by
    rw [hll, hk1, key, lastN, hYlen]
    rcases Nat.eq_zero_or_pos cl with hcl | hcl
    · subst hcl
      rw [List.drop_eq_nil_of_le (by rw [hYlen]; omega),
        List.drop_eq_nil_of_le (by rw [hYlen]; omega)]
    · congr 1
      omega
  refine ⟨hc1, ?_⟩
  rw [hc1, lastN_length, hll, hk1, hYlen]
  omega

/-- Claim C1, counterexample to the stated length: with `context_depth = 1`
and a log whose second line is the first match (one line before the match),
the returned context is empty, while the claim calls for
`min(1, 1) = 1` context line. -/
theorem c1_counterexample :
    extract_first_uvm_error [demoUvmPat] demoLog 1 =
      some ⟨2, ("UVM_ERROR tb_top.sv(17) boom"), ("tb_top.sv"), 17, []⟩ ∧
    (0 : Nat) ≠ min 1 (2 - 1) := by
  constructor
  · rfl
  · decide

/-- Witness for the amended C1 at the source's `MAX_CONTEXT_LINES = 15` on
the demo log. -/
theorem c1_witness :
    (⟨2, ("UVM_ERROR tb_top.sv(17) boom"), ("tb_top.sv"), 17,
        [("hello")]⟩ : FailureRecord).context =
      lastN (min (15 - 1) (2 - 1)) ((demoLog.take (2 - 1)).map pyRstripStr) ∧
    (⟨2, ("UVM_ERROR tb_top.sv(17) boom"), ("tb_top.sv"), 17,
        [("hello")]⟩ : FailureRecord).context.length = min (15 - 1) (2 - 1) :=
  c1_context_amended [demoUvmPat] demoLog 15
    ⟨2, ("UVM_ERROR tb_top.sv(17) boom"), ("tb_top.sv"), 17, [("hello")]⟩ rfl

/-! ## Claim C2 -/

theorem scanFile_self_none (fuel : Nat) :
    ∀ acc, scanFile selfFS [("." : String)] fuel ("./a.sv") acc = none := by
  induction fuel with
  | zero => intro acc; rfl
  | succ m ih =>
    intro acc
    simp only [scanFile]
    rw [show existsPath selfFS ("./a.sv") = true from rfl]
    simp only [if_true]
    rw [show linesOf selfFS ("./a.sv") = [selfIncludeLine] from rfl]
    simp only [scanLinesGo]
    rw [show findIncludeName selfIncludeLine.data = some ("a.sv") from rfl]
    simp only [scanRootsGo]
    rw [show joinPath ("." : String) ("a.sv") = ("./a.sv") from rfl]
    rw [show existsPath selfFS ("./a.sv") = true from rfl]
    simp only [if_true, ih]

/-- Claim C2: the claimed termination (no file scanned twice) is the spec's
intent, but the source's `scan` has no visited check: on a file that
includes itself, no recursion depth suffices — `scan` calls itself on the
same path forever (in Python, until the recursion limit). -/
theorem c2_self_include_diverges (fuel : Nat) :
    find_related_tb_files selfFS ("a.sv") [("." : String)] fuel = none := by
  cases fuel with
  | zero => rfl
  | succ m =>
    show scanFile selfFS [("." : String)] (m + 1) ("a.sv") [] = none
    simp only [scanFile]
    rw [show existsPath selfFS ("a.sv") = true from rfl]
    simp only [if_true]
    rw [show linesOf selfFS ("a.sv") = [selfIncludeLine] from rfl]
    simp only [scanLinesGo]
    rw [show findIncludeName selfIncludeLine.data = some ("a.sv") from rfl]
    simp only [scanRootsGo]
    rw [show joinPath ("." : String) ("a.sv") = ("./a.sv") from rfl]
    rw [show existsPath selfFS ("./a.sv") = true from rfl]
    simp only [if_true, scanFile_self_none]

/-! ## Claim C3 -/

/-- Claim C3, amended: the per-directive loop consults the search roots in
the given order, but recurses into EVERY root under which the referenced
file exists — the source's loop has no `break`, so later roots are still
consulted and recursed into after an earlier root resolves the file.  The
loop equals a monadic fold of the recursive scan over all existing
resolutions, in root order. -/
theorem c3_all_roots (fs : FS) (rec : String → List String → Option (List String))
    (roots : List String) (name : String) (acc : List String) :
    scanRootsGo fs rec roots name acc =
      (existingJoins fs name roots).foldlM (fun a inc => rec inc a) acc := by
  induction roots generalizing acc with
  | nil => rfl
  | cons p rest ih =>
    simp only [existingJoins] at ih ⊢
    simp only [scanRootsGo, List.map_cons, List.filter_cons]
    cases hex : existsPath fs (joinPath p name) with
    | true =>
      simp only [hex, if_true, List.foldlM_cons]
      cases hrec : rec (joinPath p name) acc with
      | none => rfl
      | some acc2 =>
        simpa using ih acc2
    | false =>
      simpa using ih acc

/-- Claim C3, counterexample to first-match-wins: `top.sv` includes
`inc.sv`, which exists under both roots; the earlier root `r1` resolves it,
yet the copy under the later root `r2` is also scanned and lands in the
result. -/
theorem c3_counterexample :
    (find_related_tb_files twoRootsFS ("top.sv") [("r1" : String), ("r2")] 3).getD []
      = [("top.sv"), ("r1/inc.sv"), ("r2/inc.sv")] ∧
    existsPath twoRootsFS ("r1/inc.sv") = true ∧
    ("r2/inc.sv") ∈ (find_related_tb_files twoRootsFS ("top.sv") [("r1" : String), ("r2")] 3).getD [] := by
  refine ⟨rfl, rfl, ?_⟩
  decide

/-! ## Characterization of `parse_llm_json` -/

theorem parse_llm_json_empty_iff (s : String) :
    parse_llm_json s = Except.error LlmParseError.emptyResponse ↔
      (pyStrip s.data).isEmpty = true := by
  unfold parse_llm_json
  cases hemp : (pyStrip s.data).isEmpty with
  | true => simp
  | false =>
    simp only [Bool.false_eq_true, if_false]
    cases hx : extractBraces (pyStrip (removeFences s.data)) with
    | none => simp
    | some cand =>
      cases hj : jsonParse cand with
      | none => simp [hj]
      | some v => simp [hj]

theorem parse_llm_json_noObject_iff (s : String) :
    parse_llm_json s = Except.error LlmParseError.noJsonObject ↔
      ((pyStrip s.data).isEmpty = false ∧
        extractBraces (pyStrip (removeFences s.data)) = none) := by
  unfold parse_llm_json
  cases hemp : (pyStrip s.data).isEmpty with
  | true => simp
  | false =>
    simp only [Bool.false_eq_true, if_false]
    cases hx : extractBraces (pyStrip (removeFences s.data)) with
    | none => simp
    | some cand =>
      cases hj : jsonParse cand with
      | none => simp [hj]
      | some v => simp [hj]

theorem parse_llm_json_ok_iff (s : String) (v : Json) :
    parse_llm_json s = Except.ok v ↔
      ((pyStrip s.data).isEmpty = false ∧
        ∃ cand, extractBraces (pyStrip (removeFences s.data)) = some cand ∧
          jsonParse cand = some v) := by
  unfold parse_llm_json
  cases hemp : (pyStrip s.data).isEmpty with
  | true => simp
  | false =>
    simp only [Bool.false_eq_true, if_false]
    cases hx : extractBraces (pyStrip (removeFences s.data)) with
    | none => simp
    | some cand =>
      cases hj : jsonParse cand with
      | none => simp [hj]
      | some v0 => simp [hj, eq_comm]

theorem parse_llm_json_decode_iff (s : String) :
    parse_llm_json s = Except.error LlmParseError.jsonDecode ↔
      ((pyStrip s.data).isEmpty = false ∧
        ∃ cand, extractBraces (pyStrip (removeFences s.data)) = some cand ∧
          jsonParse cand = none) := by
  unfold parse_llm_json
  cases hemp : (pyStrip s.data).isEmpty with
  | true => simp
  | false =>
    simp only [Bool.false_eq_true, if_false]
    cases hx : extractBraces (pyStrip (removeFences s.data)) with
    | none => simp
    | some cand =>
      cases hj : jsonParse cand with
      | none => simp [hj]
      | some v0 => simp [hj]

/-! ## Claim C5 -/

/-- Claim C5: `parse_llm_json` strips fence markers, takes the first-brace
to last-brace candidate and decodes it as JSON: each outcome is
characterized by that pipeline, the fenced §8 payload round-trips to its
structured value, empty and whitespace-only input fail as an empty response,
brace-free text fails with no-JSON-object, and brace-delimited non-JSON
fails with a decode error. -/
theorem c5_extract_plan :
    (∀ s : String, parse_llm_json s = Except.error LlmParseError.emptyResponse ↔
      (pyStrip s.data).isEmpty = true) ∧
    (∀ s : String, parse_llm_json s = Except.error LlmParseError.noJsonObject ↔
      ((pyStrip s.data).isEmpty = false ∧
        extractBraces (pyStrip (removeFences s.data)) = none)) ∧
    (∀ (s : String) (v : Json), parse_llm_json s = Except.ok v ↔
      ((pyStrip s.data).isEmpty = false ∧
        ∃ cand, extractBraces (pyStrip (removeFences s.data)) = some cand ∧
          jsonParse cand = some v)) ∧
    (∀ s : String, parse_llm_json s = Except.error LlmParseError.jsonDecode ↔
      ((pyStrip s.data).isEmpty = false ∧
        ∃ cand, extractBraces (pyStrip (removeFences s.data)) = some cand ∧
          jsonParse cand = none)) ∧
    parse_llm_json fencedPlanText = Except.ok fencedPlanJson ∧
    parse_llm_json ("") = Except.error LlmParseError.emptyResponse ∧
    parse_llm_json ("   ") = Except.error LlmParseError.emptyResponse ∧
    parse_llm_json ("no json here") = Except.error LlmParseError.noJsonObject ∧
    parse_llm_json ("\x7bnot json\x7d") = Except.error LlmParseError.jsonDecode :=
  ⟨parse_llm_json_empty_iff, parse_llm_json_noObject_iff, parse_llm_json_ok_iff,
   parse_llm_json_decode_iff, rfl, rfl, rfl, rfl, rfl⟩

/-! ## Claim C8 -/

/-- Claim C8, amended: the validator enforces no `DebugPlan` invariant at
all — whatever the candidate decodes to is returned unchanged, so
`start_time <= end_time` is NOT guaranteed (see the counterexample), and an
empty `signals` list is likewise accepted. -/
theorem c8_no_validation (s : String) (v : Json)
    (h : parse_llm_json s = Except.ok v) :
    ∃ cand, extractBraces (pyStrip (removeFences s.data)) = some cand ∧
      jsonParse cand = some v :=
  ((parse_llm_json_ok_iff s v).mp h).2

/-- Claim C8, counterexample: a decodable payload with an empty signals
list and `start_time = 10 > 0 = end_time` is returned as a success by the
validator. -/
theorem c8_counterexample :
    parse_llm_json invertedPlanText = Except.ok invertedPlanJson ∧
    getPlanInt invertedPlanJson ("start_time") = some 10 ∧
    getPlanInt invertedPlanJson ("end_time") = some 0 ∧
    invertedPlanJson.getField ("signals") = some (Json.arr []) ∧
    ¬ ((10 : Int) ≤ 0) := by
  refine ⟨rfl, rfl, rfl, rfl, ?_⟩
  decide

/-- Witness for the amended C8 at the inverted-window payload. -/
theorem c8_witness :
    ∃ cand, extractBraces (pyStrip (removeFences invertedPlanText.data)) = some cand ∧
      jsonParse cand = some invertedPlanJson :=
  c8_no_validation invertedPlanText invertedPlanJson rfl

/-! ## Claim C4 -/

theorem retryGo_allFail (oracle : Nat → String)
    (hfail : ∀ n, ∃ e, parse_llm_json (oracle n) = Except.error e) :
    ∀ (r att : Nat), (retryGo oracle att r).2 = r + 1 ∧
      ∃ e, parse_llm_json (oracle (att + r)) = Except.error e ∧
        (retryGo oracle att r).1 = Except.error e := by
  intro r
  induction r with
  | zero =>
    intro att
    obtain ⟨e, he⟩ := hfail att
    exact ⟨rfl, e, by simpa using he, by simp [retryGo, he]⟩
  | succ m ih =>
    intro att
    obtain ⟨e, he⟩ := hfail att
    obtain ⟨hc, e2, he2, hr⟩ := ih (att + 1)
    refine ⟨by simp [retryGo, he, hc], e2, ?_, by simp [retryGo, he, hr]⟩
    rw [show att + (m + 1) = att + 1 + m by omega]
    exact he2

theorem retryGo_firstOk (oracle : Nat → String) :
    ∀ (k r att : Nat) (p : Json), k ≤ r →
      (∀ i, i < k → ∃ e, parse_llm_json (oracle (att + i)) = Except.error e) →
      parse_llm_json (oracle (att + k)) = Except.ok p →
      retryGo oracle att r = (Except.ok p, k + 1) := by
  intro k
  induction k with
  | zero =>
    intro r att p _ _ hok
    rw [Nat.add_zero] at hok
    cases r with
    | zero => simp [retryGo, hok]
    | succ m => simp [retryGo, hok]
  | succ m ih =>
    intro r att p hkr hfails hok
    cases r with
    | zero => omega
    | succ r2 =>
      obtain ⟨e, he⟩ := hfails 0 (by omega)
      rw [Nat.add_zero] at he
      have IH := ih r2 (att + 1) p (by omega)
        (fun i hi => by
          obtain ⟨e2, he2⟩ := hfails (i + 1) (by omega)
          exact ⟨e2, by rw [show att + 1 + i = att + (i + 1) by omega]; exact he2⟩)
        (by rw [show att + 1 + m = att + (m + 1) by omega]; exact hok)
      simp [retryGo, he, IH]

/-- Claim C4: with an oracle whose replies never parse and `max_retries =
2`, the loop invokes the oracle exactly 3 times and fails carrying the
attempt count 3 and the last parse failure as cause; and whenever the first
`k` replies fail to parse and reply `k` parses (within the budget), the loop
returns that parsed plan after exactly `k + 1` invocations — the first
parsing attempt returns immediately, with no further invocations. -/
theorem c4_retry (oracle : Nat → String) :
    ((∀ n, ∃ e, parse_llm_json (oracle n) = Except.error e) →
      (get_debug_plan_with_retry oracle 2).2 = 3 ∧
      ∃ e, parse_llm_json (oracle 2) = Except.error e ∧
        (get_debug_plan_with_retry oracle 2).1 = Except.error (3, e)) ∧
    (∀ k retries p, k ≤ retries →
      (∀ i, i < k → ∃ e, parse_llm_json (oracle i) = Except.error e) →
      parse_llm_json (oracle k) = Except.ok p →
      get_debug_plan_with_retry oracle retries = (Except.ok p, k + 1)) := by
  constructor
  · intro hfail
    obtain ⟨hc, e, he, hr⟩ := retryGo_allFail oracle hfail 2 0
    rw [Nat.zero_add] at he
    refine ⟨?_, e, he, ?_⟩
    · simp [get_debug_plan_with_retry, hc]
    · simp [get_debug_plan_with_retry, hr]
  · intro k retries p hkr hfails hok
    have H := retryGo_firstOk oracle k retries 0 p hkr
      (fun i hi => by simpa using hfails i hi) (by simpa using hok)
    simp [get_debug_plan_with_retry, H]

/-- Witness for C4: the always-unparsable stub is invoked 3 times with
`max_retries = 2` and exhausts with the last cause; the raw-then-plan stub
parses on its second reply and stops after 2 invocations. -/
theorem c4_witness :
    ((get_debug_plan_with_retry stubAlwaysBad 2).2 = 3 ∧
      ∃ e, parse_llm_json (stubAlwaysBad 2) = Except.error e ∧
        (get_debug_plan_with_retry stubAlwaysBad 2).1 = Except.error (3, e)) ∧
    get_debug_plan_with_retry stubRawThenPlan 2 = (Except.ok clkPlanJson, 2) :=
  ⟨(c4_retry stubAlwaysBad).1 (fun _ => ⟨LlmParseError.noJsonObject, rfl⟩),
   (c4_retry stubRawThenPlan).2 1 2 clkPlanJson (by omega)
     (fun i hi => by
       cases i with
       | zero => exact ⟨LlmParseError.noJsonObject, rfl⟩
       | succ n => omega)
     rfl⟩

/-! ## Claim C6 -/

theorem vcdGo_spec (signal : String) (s e : Int) :
    ∀ (lines : List String) (t : Int) (acc res : List (Int × String)),
    vcdGo signal s e lines t acc = .ok res →
    timesOk lines t = true →
    (∀ pr ∈ acc, s ≤ pr.1 ∧ pr.1 ≤ e) →
    (∀ pr ∈ acc, pr.1 ≤ t) →
    List.Chain' (fun a b => a.1 ≤ b.1) acc →
    (∀ pr ∈ acc, pr.2.data.head? ≠ some ('#')) →
    ((∀ pr ∈ res, s ≤ pr.1 ∧ pr.1 ≤ e) ∧
     List.Chain' (fun a b => a.1 ≤ b.1) res ∧
     (∀ pr ∈ res, pr.2.data.head? ≠ some ('#'))) := by
  intro lines
  induction lines with
  | nil =>
    intro t acc res hok _ hin _ hchain hmkr
    simp only [vcdGo] at hok
    injection hok with h
    subst h
    exact ⟨hin, hchain, hmkr⟩
  | cons l rest ih =>
    intro t acc res hok hord hin hat hchain hmkr
    simp only [vcdGo] at hok
    simp only [timesOk] at hord
    cases hmark : ((pyStrip l.data).head? == some ('#')) with
    | true =>
      simp only [hmark, if_true] at hok hord
      cases hpint : parseIntChars (pyStrip l.data).tail with
      | some t2 =>
        simp only [hpint] at hok hord
        rw [Bool.and_eq_true] at hord
        exact ih t2 acc res hok hord.2 hin
          (fun pr hpr => le_trans (hat pr hpr) (of_decide_eq_true hord.1)) hchain hmkr
      | none => simp [hpint] at hok
    | false =>
      simp only [hmark, Bool.false_eq_true, if_false] at hok hord
      cases hq : ((decide (s ≤ t) && decide (t ≤ e)) && containsSub (pyStrip l.data) signal.data) with
      | true =>
        simp only [hq, if_true] at hok
        have hqs := hq
        rw [Bool.and_eq_true, Bool.and_eq_true] at hqs
        have hst : s ≤ t := of_decide_eq_true hqs.1.1
        have hte : t ≤ e := of_decide_eq_true hqs.1.2
        have hneq : (pyStrip l.data).head? ≠ some ('#') := by
          intro heq
          rw [heq] at hmark
          simp at hmark
        apply ih t (acc ++ [(t, String.mk (pyStrip l.data))]) res hok hord
        · intro pr hpr
          rcases List.mem_append.mp hpr with h | h
          · exact hin pr h
          · simp only [List.mem_singleton] at h
            subst h
            exact ⟨hst, hte⟩
        · intro pr hpr
          rcases List.mem_append.mp hpr with h | h
          · exact hat pr h
          · simp only [List.mem_singleton] at h
            subst h
            exact le_refl t
        · apply List.Chain'.append hchain (List.chain'_singleton _)
          intro a ha b hb
          simp only [List.head?_cons, Option.mem_def, Option.some.injEq] at hb
          subst hb
          exact hat a (List.mem_of_mem_getLast? ha)
        · intro pr hpr
          rcases List.mem_append.mp hpr with h | h
          · exact hmkr pr h
          · simp only [List.mem_singleton] at h
            subst h
            exact hneq
      | false =>
        simp only [hq, Bool.false_eq_true, if_false] at hok
        exact ih t acc res hok hord hin hat hchain hmkr

/-- Claim C6: on a time-ordered trace (the spec's data model requires the
time markers to be non-decreasing), every emitted match lies inside the
inclusive window `[s, e]`, the matches appear in non-decreasing time order,
and no emitted raw event is a time-marker line.  An empty result is an
ordinary success (see the witness for a window with no qualifying event). -/
theorem c6_vcd_window (trace : List String) (signal : String) (s e : Int)
    (res : List (Int × String))
    (hok : extract_vcd_window trace signal s e = .ok res)
    (hord : timesOk trace 0 = true) :
    (∀ pr ∈ res, s ≤ pr.1 ∧ pr.1 ≤ e) ∧
    List.Chain' (fun a b => a.1 ≤ b.1) res ∧
    (∀ pr ∈ res, pr.2.data.head? ≠ some ('#')) :=
  vcdGo_spec signal s e trace 0 [] res hok hord
    (by simp) (by simp) (by simp) (by simp)

/-- Witness for C6 on the demo trace: a populated window, plus two windows
with no qualifying event returning an empty sequence rather than an error. -/
theorem c6_witness :
    extract_vcd_window demoVcd ("clk") 301 400 = .ok [] ∧
    ((∀ pr ∈ [((100 : Int), ("clk 1")), ((150 : Int), ("xclk 0"))],
        (100 : Int) ≤ pr.1 ∧ pr.1 ≤ (200 : Int)) ∧
      List.Chain' (fun a b => a.1 ≤ b.1)
        [((100 : Int), ("clk 1")), ((150 : Int), ("xclk 0"))] ∧
      (∀ pr ∈ [((100 : Int), ("clk 1")), ((150 : Int), ("xclk 0"))],
        pr.2.data.head? ≠ some ('#'))) :=
  ⟨rfl, c6_vcd_window demoVcd ("clk") 100 200
    [((100 : Int), ("clk 1")), ((150 : Int), ("xclk 0"))] rfl rfl⟩

/-! ## Claim C9 -/

theorem retryGo_ok_char (oracle : Nat → String) :
    ∀ (r att : Nat) (p : Json) (c : Nat),
    retryGo oracle att r = (Except.ok p, c) →
    ∃ j, j ≤ r ∧ parse_llm_json (oracle (att + j)) = Except.ok p ∧ c = j + 1 ∧
      ∀ i, i < j → ∃ e, parse_llm_json (oracle (att + i)) = Except.error e := by
  intro r
  induction r with
  | zero =>
    intro att p c h
    simp only [retryGo] at h
    rw [Prod.mk.injEq] at h
    obtain ⟨h1, h2⟩ := h
    exact ⟨0, by omega, by simpa using h1, by omega, fun i hi => absurd hi (by omega)⟩
  | succ m ih =>
    intro att p c h
    simp only [retryGo] at h
    cases hp : parse_llm_json (oracle att) with
    | ok q =>
      simp only [hp] at h
      rw [Prod.mk.injEq] at h
      obtain ⟨h1, h2⟩ := h
      refine ⟨0, by omega, ?_, by omega, fun i hi => absurd hi (by omega)⟩
      rw [Nat.add_zero, hp, h1]
    | error e =>
      simp only [hp] at h
      rw [Prod.mk.injEq] at h
      obtain ⟨h1, h2⟩ := h
      have hpair : retryGo oracle (att + 1) m =
          (Except.ok p, (retryGo oracle (att + 1) m).2) := by
        rw [← h1]
      obtain ⟨j, hj, hokj, hc, hfails⟩ := ih (att + 1) p _ hpair
      refine ⟨j + 1, by omega, ?_, by omega, ?_⟩
      · rw [show att + (j + 1) = att + 1 + j by omega]
        exact hokj
      · intro i hi
        cases i with
        | zero => exact ⟨e, by simpa using hp⟩
        | succ i2 =>
          obtain ⟨e2, he2⟩ := hfails i2 (by omega)
          exact ⟨e2, by rw [show att + (i2 + 1) = att + 1 + i2 by omega]; exact he2⟩

/-- Claim C9: in every successful orchestrator run, the final-report oracle
is invoked exactly once, on the failure record, the raw step-3 plan text
(the reply of plan-oracle call 0) and the waveform mapping; the validated
plan is parsed from a plan-oracle reply of index `j ≥ 1` — a second,
independent round trip, never a reuse of the step-3 reply — after at least
two plan-oracle calls in total; and the waveform mapping is built from that
validated plan. -/
theorem c9_orchestrator (patterns : List UvmPattern) (log : List String) (fs : FS)
    (search_paths : List String) (resolverFuel : Nat) (vcd : List String)
    (planOracle : Nat → String)
    (finalOracle : FailureRecord → String → VcdData → String) (tr : RunTrace)
    (hok : (run_ai_debug patterns log fs search_paths resolverFuel vcd planOracle
      finalOracle).isOk = true)
    (htr : tr = runTraceOf (run_ai_debug patterns log fs search_paths resolverFuel vcd
      planOracle finalOracle)) :
    tr.finalArgs = [(tr.errorRecord, tr.rawPlanText, tr.vcdData)] ∧
    tr.finalArgs.length = 1 ∧
    tr.rawPlanText = planOracle 0 ∧
    (∃ j, 1 ≤ j ∧ j ≤ 3 ∧
      parse_llm_json (planOracle j) = Except.ok tr.validatedPlan ∧
      tr.planOracleCalls = j + 1 ∧
      ∀ i, 1 ≤ i → i < j → ∃ er, parse_llm_json (planOracle i) = Except.error er) ∧
    2 ≤ tr.planOracleCalls ∧
    buildVcdData vcd tr.validatedPlan = Except.ok tr.vcdData := by
  cases hscan : extract_first_uvm_error patterns log MAX_CONTEXT_LINES with
  | none => simp [run_ai_debug, hscan, Except.isOk, Except.toBool] at hok
  | some errorInfo =>
    cases hfind : find_related_tb_files fs errorInfo.tb_file search_paths resolverFuel with
    | none => simp [run_ai_debug, hscan, hfind, Except.isOk, Except.toBool] at hok
    | some related =>
      cases hres : (get_debug_plan_with_retry (fun n => planOracle (n + 1)) 2).1 with
      | error e2 => simp [run_ai_debug, hscan, hfind, hres, Except.isOk, Except.toBool] at hok
      | ok plan =>
        cases hbuild : buildVcdData vcd plan with
        | error er => simp [run_ai_debug, hscan, hfind, hres, hbuild, Except.isOk, Except.toBool] at hok
        | ok vcdData =>
          have hrun : run_ai_debug patterns log fs search_paths resolverFuel vcd planOracle
              finalOracle =
              .ok (finalOracle errorInfo (planOracle 0) vcdData,
                ⟨errorInfo, related, planOracle 0,
                  1 + (get_debug_plan_with_retry (fun n => planOracle (n + 1)) 2).2, plan,
                  vcdData, [(errorInfo, planOracle 0, vcdData)]⟩) := by
            simp [run_ai_debug, hscan, hfind, hres, hbuild]
          subst htr
          rw [hrun]
          have hres2 : (retryGo (fun n => planOracle (n + 1)) 0 2).1 = Except.ok plan := by
            have h0 := hres
            simp only [get_debug_plan_with_retry] at h0
            cases hr : (retryGo (fun n => planOracle (n + 1)) 0 2).1 with
            | ok q =>
              simp only [hr] at h0
              injection h0 with hq
              rw [hq]
            | error e3 => simp [hr] at h0
          have hpair : retryGo (fun n => planOracle (n + 1)) 0 2 =
              (Except.ok plan, (retryGo (fun n => planOracle (n + 1)) 0 2).2) := by
            rw [← hres2]
          obtain ⟨j, hj, hokj, hc, hfails⟩ :=
            retryGo_ok_char (fun n => planOracle (n + 1)) 2 0 plan _ hpair
          have hsnd : (get_debug_plan_with_retry (fun n => planOracle (n + 1)) 2).2 =
              (retryGo (fun n => planOracle (n + 1)) 0 2).2 := rfl
          refine ⟨rfl, rfl, rfl, ⟨j + 1, by omega, by omega, ?_, ?_, ?_⟩, ?_, hbuild⟩
          · show parse_llm_json (planOracle (j + 1)) = Except.ok plan
            simpa using hokj
          · show 1 + (get_debug_plan_with_retry (fun n => planOracle (n + 1)) 2).2 = j + 1 + 1
            rw [hsnd, hc]
            omega
          · intro i h1i hij
            cases i with
            | zero => omega
            | succ i2 =>
              obtain ⟨er, her⟩ := hfails i2 (by omega)
              exact ⟨er, by simpa using her⟩
          · show 2 ≤ 1 + (get_debug_plan_with_retry (fun n => planOracle (n + 1)) 2).2
            rw [hsnd, hc]
            omega

/-- Witness for C9 on the concrete demo pipeline run. -/
theorem c9_witness :
    (runTraceOf demoRun).finalArgs =
      [((runTraceOf demoRun).errorRecord, (runTraceOf demoRun).rawPlanText,
        (runTraceOf demoRun).vcdData)] ∧
    (runTraceOf demoRun).finalArgs.length = 1 ∧
    (runTraceOf demoRun).rawPlanText = stubRawThenPlan 0 ∧
    (∃ j, 1 ≤ j ∧ j ≤ 3 ∧
      parse_llm_json (stubRawThenPlan j) = Except.ok (runTraceOf demoRun).validatedPlan ∧
      (runTraceOf demoRun).planOracleCalls = j + 1 ∧
      ∀ i, 1 ≤ i → i < j → ∃ er, parse_llm_json (stubRawThenPlan i) = Except.error er) ∧
    2 ≤ (runTraceOf demoRun).planOracleCalls ∧
    buildVcdData demoVcd (runTraceOf demoRun).validatedPlan =
      Except.ok (runTraceOf demoRun).vcdData :=
  c9_orchestrator [demoUvmPat] demoLog selfFS [("r1")] 1 demoVcd stubRawThenPlan
    demoFinalOracle (runTraceOf demoRun) rfl rfl

/-! ## Claim C10 -/

/-- Claim C10: `parse_llm_json` performs no shape validation — well-formed
JSON lacking every `DebugPlan` field is returned as a success — even though
the orchestrator then indexes the plan by those fields (on this value its
mapping construction fails with the shape error). -/
theorem c10_no_shape_validation :
    parse_llm_json fieldlessText = Except.ok fieldlessJson ∧
    fieldlessJson.getField ("signals") = none ∧
    fieldlessJson.getField ("start_time") = none ∧
    fieldlessJson.getField ("end_time") = none ∧
    fieldlessJson.getField ("reasoning") = none ∧
    buildVcdData demoVcd fieldlessJson = Except.error RunError.planShape :=
  ⟨rfl, rfl, rfl, rfl, rfl, rfl⟩
